import Mathlib

/-!
Verification of the DailyMed-Search-Tool core pipeline (dailymed_client.py and
search/api_views.py): the SPL label parser `_parse_spl_xml`, the streaming
filter search `search_with_filters`, the pagination advisory of
`print_pagination_info`, and the excipient categorization helper of
`search_drugs_stream`.

The Python code is shallowly embedded: XML element trees (the result of
`xml.etree.ElementTree.fromstring`) become the inductive `Element`; Python
strings become `String` with explicit models of the str methods used by the
code (`lower`, `upper`, `title`, `strip`, `split`, `in`, `startswith`,
`join`); Python `None` becomes `Option`; exceptions raised and caught during
traversal become `Except`.
-/

set_option maxHeartbeats 2000000

/-! ## Models of the Python string operations used by the client -/

/-- Model of Python substring containment `needle in hay` on char lists. -/
def listContainsSub (needle : List Char) : List Char → Bool
  | [] => needle.isEmpty
  | c :: rest => needle.isPrefixOf (c :: rest) || listContainsSub needle rest

/-- Model of Python `needle in hay` for strings. -/
def pyIn (needle hay : String) : Bool := listContainsSub needle.data hay.data

/-- Model of Python `s.lower()` (ASCII, as used on the ASCII SPL fields). -/
def pyLower (s : String) : String := ⟨s.data.map Char.toLower⟩

/-- Model of Python `s.upper()` (ASCII). -/
def pyUpper (s : String) : String := ⟨s.data.map Char.toUpper⟩

/-- One step of Python `str.title()`: the boolean says whether the previous
character was alphabetic. -/
def pyTitleAux : Bool → List Char → List Char
  | _, [] => []
  | prevAlpha, c :: cs =>
    if c.isAlpha then
      (if prevAlpha then c.toLower else c.toUpper) :: pyTitleAux true cs
    else
      c :: pyTitleAux false cs

/-- Model of Python `s.title()`: first letter of every alphabetic run is
upper-cased, the rest lower-cased. -/
def pyTitle (s : String) : String := ⟨pyTitleAux false s.data⟩

/-- Strip characters satisfying `p` from both ends of a char list. -/
def stripList (p : Char → Bool) (l : List Char) : List Char :=
  ((l.dropWhile p).reverse.dropWhile p).reverse

/-- Model of Python `s.strip()` (no arguments: whitespace). -/
def pyStrip (s : String) : String := ⟨stripList Char.isWhitespace s.data⟩

/-- Model of Python `s.strip(".: ")` as used on the excipient prose. -/
def pyStripDotColonSpace (s : String) : String :=
  ⟨stripList (fun c => c = '.' || c = ':' || c = ' ') s.data⟩

/-- Split a char list into maximal whitespace-free words (Python `s.split()`
with no argument drops empty fragments). `acc` holds the current word in
reverse. -/
def splitWSAux : List Char → List Char → List (List Char)
  | [], acc => if acc.isEmpty then [] else [acc.reverse]
  | c :: rest, acc =>
    if c.isWhitespace then
      if acc.isEmpty then splitWSAux rest [] else acc.reverse :: splitWSAux rest []
    else
      splitWSAux rest (c :: acc)

/-- Model of Python `s.split()` (split on whitespace runs). -/
def pySplitWS (s : String) : List String := (splitWSAux s.data []).map String.mk

/-- Model of Python `sep.join(parts)`. -/
def joinSep (sep : String) : List String → String
  | [] => ""
  | [s] => s
  | s :: rest => s ++ sep ++ joinSep sep rest

/-- Model of the idiom `" ".join(s.split()).strip()` used throughout the
parser to collapse whitespace. -/
def normJoin (s : String) : String := pyStrip (joinSep " " (pySplitWS s))

/-- First occurrence split: `findSplit sep l = some (pre, post)` when `sep`
occurs in `l`, with `pre` the part before the first occurrence and `post`
the part after it. -/
def findSplit (sep : List Char) : List Char → Option (List Char × List Char)
  | [] => if sep.isPrefixOf ([] : List Char) then some ([], []) else none
  | c :: cs =>
    if sep.isPrefixOf (c :: cs) then some ([], (c :: cs).drop sep.length)
    else (findSplit sep cs).map (fun p => (c :: p.1, p.2))

/-- Fuelled repeated splitting on a separator (Python `s.split(sep)`). -/
def splitFuel (sep : List Char) : Nat → List Char → List (List Char)
  | 0, l => [l]
  | n + 1, l =>
    match findSplit sep l with
    | none => [l]
    | some p => p.1 :: splitFuel sep n p.2

/-- Model of Python `s.split(sep)` for a non-empty separator. -/
def pySplitOnStr (sep s : String) : List String :=
  (splitFuel sep.data (s.data.length + 1) s.data).map String.mk

/-- Model of Python `s.startswith(pre)`. -/
def pyStartsWith (pre s : String) : Bool := pre.data.isPrefixOf s.data

/-- Model of Python slicing `s[n:]` (by character, ASCII inputs). -/
def sliceFrom (n : Nat) (s : String) : String := ⟨s.data.drop n⟩

/-- Model of Python `str(x)` for `x : Optional[str]`: `None` renders as the
literal string `"None"`. -/
def pyStrOfOpt : Option String → String
  | none => "None"
  | some s => s

/-- Python truthiness of an `Optional[str]` value: `None` and `""` are falsy. -/
def optTruthy : Option String → Bool
  | none => false
  | some s => s ≠ ""

/-- Model of the Python set-insert on a list carrying set semantics: append
the element only when absent. -/
def setAdd (s : String) (l : List String) : List String :=
  if s ∈ l then l else l ++ [s]

/-- Model of Python `a.union(b)` on such lists. -/
def setUnion (a b : List String) : List String :=
  b.foldl (fun acc s => setAdd s acc) a

/-- Model of the comparison Python `sorted` uses on strings: lexicographic by
code point. -/
def listLexLe : List Char → List Char → Bool
  | [], _ => true
  | _ :: _, [] => false
  | a :: as, b :: bs =>
    if a < b then true else if b < a then false else listLexLe as bs

/-- Code-point comparison on strings. -/
def pyStrLe (a b : String) : Bool := listLexLe a.data b.data

/-- Insert into a list sorted by `pyStrLe`. -/
def insertSorted (a : String) : List String → List String
  | [] => [a]
  | b :: l => if pyStrLe a b then a :: b :: l else b :: insertSorted a l

/-- Model of Python `sorted` on a list of strings (insertion sort; agrees
with Python because the comparison is a total order). -/
def pySorted : List String → List String
  | [] => []
  | a :: l => insertSorted a (pySorted l)

/-! ### Facts about the string primitives -/

theorem listLexLe_total : ∀ as bs, listLexLe as bs = true ∨ listLexLe bs as = true := by
  intro as
  induction as with
  | nil => intro bs; left; rfl
  | cons a as ih =>
    intro bs
    cases bs with
    | nil => right; rfl
    | cons b bs =>
      by_cases h1 : a < b
      · left; simp [listLexLe, h1]
      · by_cases h2 : b < a
        · right; simp [listLexLe, h2]
        · rcases ih bs with h | h
          · left; simp [listLexLe, h1, h2, h]
          · right; simp [listLexLe, h1, h2, h]

theorem listLexLe_trans :
    ∀ as bs cs, listLexLe as bs = true → listLexLe bs cs = true →
      listLexLe as cs = true := by
  intro as
  induction as with
  | nil => intro bs cs _ _; rfl
  | cons a as ih =>
    intro bs cs hab hbc
    cases bs with
    | nil => simp [listLexLe] at hab
    | cons b bs =>
      cases cs with
      | nil => simp [listLexLe] at hbc
      | cons c cs =>
        by_cases hab1 : a < b
        · by_cases hbc1 : b < c
          · simp [listLexLe, lt_trans hab1 hbc1]
          · by_cases hbc2 : c < b
            · simp [listLexLe, hbc1, hbc2] at hbc
            · have hbceq : b = c := le_antisymm (not_lt.mp hbc2) (not_lt.mp hbc1)
              subst hbceq
              simp [listLexLe, hab1]
        · by_cases hab2 : b < a
          · simp [listLexLe, hab1, hab2] at hab
          · have habeq : a = b := le_antisymm (not_lt.mp hab2) (not_lt.mp hab1)
            subst habeq
            by_cases hbc1 : a < c
            · simp [listLexLe, hbc1]
            · by_cases hbc2 : c < a
              · simp [listLexLe, hbc1, hbc2] at hbc
              · simp only [listLexLe, if_neg hab1, if_neg hab2] at hab
                simp only [listLexLe, if_neg hbc1, if_neg hbc2] at hbc ⊢
                exact ih bs cs hab hbc

theorem pyStrLe_total (a b : String) : pyStrLe a b = true ∨ pyStrLe b a = true :=
  listLexLe_total a.data b.data

theorem pyStrLe_trans {a b c : String} (h1 : pyStrLe a b = true)
    (h2 : pyStrLe b c = true) : pyStrLe a c = true :=
  listLexLe_trans a.data b.data c.data h1 h2

theorem insertSorted_perm (a : String) :
    ∀ l : List String, List.Perm (insertSorted a l) (a :: l) := by
  intro l
  induction l with
  | nil => simp [insertSorted]
  | cons b l ih =>
    by_cases h : pyStrLe a b = true
    · simp [insertSorted, h]
    · simp only [insertSorted, h, if_false]
      exact ((ih.cons b).trans (List.Perm.swap a b l))

theorem pySorted_perm : ∀ l : List String, List.Perm (pySorted l) l := by
  intro l
  induction l with
  | nil => simp [pySorted]
  | cons a l ih => exact (insertSorted_perm a (pySorted l)).trans (ih.cons a)

theorem insertSorted_pairwise (a : String) (l : List String)
    (h : List.Pairwise (fun x y => pyStrLe x y = true) l) :
    List.Pairwise (fun x y => pyStrLe x y = true) (insertSorted a l) := by
  induction l with
  | nil => simp [insertSorted]
  | cons b l ih =>
    rcases List.pairwise_cons.mp h with ⟨hb, hl⟩
    by_cases hab : pyStrLe a b = true
    · simp only [insertSorted, hab, if_true]
      refine List.pairwise_cons.mpr ⟨?_, h⟩
      intro x hx
      rcases List.mem_cons.mp hx with rfl | hx
      · exact hab
      · exact pyStrLe_trans hab (hb x hx)
    · have hba : pyStrLe b a = true := (pyStrLe_total a b).resolve_left hab
      simp only [insertSorted, hab, if_false]
      refine List.pairwise_cons.mpr ⟨?_, ih hl⟩
      intro x hx
      have hx' : x = a ∨ x ∈ l := by
        have := (insertSorted_perm a l).mem_iff.mp hx
        simpa using this
      rcases hx' with rfl | hx'
      · exact hba
      · exact hb x hx'

theorem pySorted_pairwise (l : List String) :
    List.Pairwise (fun x y => pyStrLe x y = true) (pySorted l) := by
  induction l with
  | nil => simp [pySorted]
  | cons a l ih => exact insertSorted_pairwise a (pySorted l) ih

theorem setAdd_mem (x s : String) (l : List String) :
    x ∈ setAdd s l ↔ x = s ∨ x ∈ l := by
  by_cases h : s ∈ l
  · simp only [setAdd, if_pos h]
    constructor
    · intro hx; right; exact hx
    · rintro (rfl | hx); exact h; exact hx
  · simp only [setAdd, if_neg h, List.mem_append, List.mem_singleton]
    tauto

theorem setAdd_nodup (s : String) (l : List String) (h : l.Nodup) :
    (setAdd s l).Nodup := by
  by_cases hs : s ∈ l
  · simpa [setAdd, hs] using h
  · simp only [setAdd, if_neg hs]
    simpa [List.nodup_append] using ⟨h, hs⟩

theorem setUnion_mem (x : String) (a b : List String) :
    x ∈ setUnion a b ↔ x ∈ a ∨ x ∈ b := by
  induction b generalizing a with
  | nil => simp [setUnion]
  | cons s b ih =>
    simp only [setUnion, List.foldl_cons] at *
    rw [ih (setAdd s a), setAdd_mem]
    simp only [List.mem_cons]
    tauto

theorem setUnion_nodup (a b : List String) (h : a.Nodup) :
    (setUnion a b).Nodup := by
  induction b generalizing a with
  | nil => simpa [setUnion]
  | cons s b ih =>
    simp only [setUnion, List.foldl_cons] at *
    exact ih (setAdd s a) (setAdd_nodup s a h)

/-! ### Case-conversion facts (ASCII), used for the dedup argument -/

theorem char_toUpper_toLower (c : Char) : c.toLower.toUpper = c.toUpper := by
  by_cases h : 65 ≤ c.toNat ∧ c.toNat ≤ 90
  · obtain ⟨n, h1, h2, hc⟩ : ∃ n, 65 ≤ n ∧ n ≤ 90 ∧ c = Char.ofNat n :=
      ⟨c.toNat, h.1, h.2, (Char.ofNat_toNat c).symm⟩
    subst hc
    interval_cases n <;> decide
  · have hfix : c.toLower = c := by
      unfold Char.toLower
      exact if_neg h
    rw [hfix]

theorem char_toUpper_toUpper (c : Char) : c.toUpper.toUpper = c.toUpper := by
  by_cases h : 97 ≤ c.toNat ∧ c.toNat ≤ 122
  · obtain ⟨n, h1, h2, hc⟩ : ∃ n, 97 ≤ n ∧ n ≤ 122 ∧ c = Char.ofNat n :=
      ⟨c.toNat, h.1, h.2, (Char.ofNat_toNat c).symm⟩
    subst hc
    interval_cases n <;> decide
  · have hfix : c.toUpper = c := by
      unfold Char.toUpper
      exact if_neg h
    rw [hfix]
    exact hfix

theorem map_toUpper_pyTitleAux :
    ∀ (l : List Char) (b : Bool),
      (pyTitleAux b l).map Char.toUpper = l.map Char.toUpper := by
  intro l
  induction l with
  | nil => intro b; rfl
  | cons c cs ih =>
    intro b
    by_cases hc : c.isAlpha
    · cases b <;>
        simp [pyTitleAux, hc, ih, char_toUpper_toLower, char_toUpper_toUpper]
    · simp [pyTitleAux, hc, ih]

theorem pyUpper_pyTitle (s : String) : pyUpper (pyTitle s) = pyUpper s :=
  congrArg String.mk (map_toUpper_pyTitleAux s.data false)

theorem list_map_eq_self {f : Char → Char} :
    ∀ l : List Char, l.map f = l ↔ ∀ c ∈ l, f c = c := by
  intro l
  induction l with
  | nil => simp
  | cons c cs ih => simp [ih]

/-- A string is in canonical upper-case form. -/
def isUpperStr (s : String) : Prop := pyUpper s = s

theorem isUpperStr_iff (s : String) :
    isUpperStr s ↔ ∀ c ∈ s.data, c.toUpper = c := by
  unfold isUpperStr pyUpper
  constructor
  · intro h
    have : s.data.map Char.toUpper = s.data := by
      have := congrArg String.data h
      simpa using this
    exact (list_map_eq_self s.data).mp this
  · intro h
    have hmap : s.data.map Char.toUpper = s.data := (list_map_eq_self s.data).mpr h
    exact congrArg String.mk hmap

theorem isUpperStr_pyUpper (s : String) : isUpperStr (pyUpper s) := by
  rw [isUpperStr_iff]
  intro c hc
  unfold pyUpper at hc
  simp only [List.mem_map] at hc
  obtain ⟨x, _, rfl⟩ := hc
  exact char_toUpper_toUpper x

theorem pyTitle_injOn {u1 u2 : String} (h1 : isUpperStr u1) (h2 : isUpperStr u2)
    (h : pyTitle u1 = pyTitle u2) : u1 = u2 := by
  rw [← h1, ← h2, ← pyUpper_pyTitle u1, ← pyUpper_pyTitle u2, h]

/-! ### Character-provenance facts: stripping and splitting do not invent
characters, so upper-case-ness is preserved by the prose pipeline. -/

theorem stripList_subset (p : Char → Bool) (l : List Char) :
    ∀ c ∈ stripList p l, c ∈ l := by
  intro c hc
  unfold stripList at hc
  rw [List.mem_reverse] at hc
  have h1 := (List.dropWhile_sublist (l := (l.dropWhile p).reverse) p).mem hc
  rw [List.mem_reverse] at h1
  exact (List.dropWhile_sublist p).mem h1

theorem pyStrip_chars {s : String} : ∀ c ∈ (pyStrip s).data, c ∈ s.data := by
  intro c hc
  exact stripList_subset _ s.data c hc

theorem isUpperStr_pyStrip {s : String} (h : isUpperStr s) :
    isUpperStr (pyStrip s) := by
  rw [isUpperStr_iff] at h ⊢
  intro c hc
  exact h c (pyStrip_chars c hc)

theorem findSplit_chars (sep : List Char) :
    ∀ (l pre post : List Char), findSplit sep l = some (pre, post) →
      (∀ c ∈ pre, c ∈ l) ∧ (∀ c ∈ post, c ∈ l) := by
  intro l
  induction l with
  | nil =>
    intro pre post h
    unfold findSplit at h
    by_cases hp : sep.isPrefixOf ([] : List Char)
    · simp only [hp, if_true, Option.some.injEq, Prod.mk.injEq] at h
      obtain ⟨rfl, rfl⟩ := h
      exact ⟨by simp, by simp⟩
    · simp [hp] at h
  | cons a rest ih =>
    intro pre post h
    unfold findSplit at h
    by_cases hp : sep.isPrefixOf (a :: rest)
    · simp only [hp, if_true, Option.some.injEq, Prod.mk.injEq] at h
      obtain ⟨rfl, rfl⟩ := h
      refine ⟨by simp, ?_⟩
      intro c hc
      exact List.mem_of_mem_drop hc
    · rcases hrec : findSplit sep rest with _ | ⟨p1, p2⟩
      · rw [hrec] at h
        simp [hp] at h
      rw [hrec] at h
      simp only [hp, if_false, Option.map_some', Option.some.injEq] at h
      obtain ⟨h1, h2⟩ : pre = a :: p1 ∧ post = p2 := by
        simpa [Prod.ext_iff] using h.symm
      obtain ⟨hpre, hpost⟩ := ih p1 p2 hrec
      subst h1
      subst h2
      constructor
      · intro c hc
        rcases List.mem_cons.mp hc with rfl | hc
        · exact List.mem_cons_self _ _
        · exact List.mem_cons_of_mem _ (hpre c hc)
      · intro c hc
        exact List.mem_cons_of_mem _ (hpost c hc)

theorem splitFuel_chars (sep : List Char) :
    ∀ (n : Nat) (l part : List Char), part ∈ splitFuel sep n l →
      ∀ c ∈ part, c ∈ l := by
  intro n
  induction n with
  | zero =>
    intro l part h
    unfold splitFuel at h
    simp only [List.mem_singleton] at h
    subst h
    exact fun c hc => hc
  | succ m ih =>
    intro l part h
    unfold splitFuel at h
    split at h
    · simp only [List.mem_singleton] at h
      subst h
      exact fun c hc => hc
    · next p hfs =>
      rcases List.mem_cons.mp h with rfl | hmem
      · exact fun c hc => (findSplit_chars sep l p.1 p.2 hfs).1 c hc
      · intro c hc
        exact (findSplit_chars sep l p.1 p.2 hfs).2 c (ih p.2 part hmem c hc)

theorem pySplitOnStr_chars {sep s t : String} (h : t ∈ pySplitOnStr sep s) :
    ∀ c ∈ t.data, c ∈ s.data := by
  unfold pySplitOnStr at h
  simp only [List.mem_map] at h
  obtain ⟨part, hpart, rfl⟩ := h
  intro c hc
  exact splitFuel_chars sep.data _ s.data part hpart c hc

theorem isUpperStr_of_chars_subset {s t : String} (h : isUpperStr s)
    (hsub : ∀ c ∈ t.data, c ∈ s.data) : isUpperStr t := by
  rw [isUpperStr_iff] at h ⊢
  intro c hc
  exact h c (hsub c hc)

/-! ## XML element model

`Element` models an `xml.etree.ElementTree` element after the client has
stripped the default namespace declaration: a tag, an attribute list, the
optional text before the first child, the children, and the optional tail
text after the closing tag. -/

inductive Element where
  | mk (tag : String) (attrs : List (String × String)) (text : Option String)
       (children : List Element) (tail : Option String)

def Element.tag : Element → String
  | .mk t _ _ _ _ => t

def Element.attrs : Element → List (String × String)
  | .mk _ a _ _ _ => a

def Element.text : Element → Option String
  | .mk _ _ t _ _ => t

def Element.children : Element → List Element
  | .mk _ _ _ cs _ => cs

def Element.tail : Element → Option String
  | .mk _ _ _ _ tl => tl

/-- Proper descendants in document (preorder) order, the order in which
`findall(".//tag")` reports matches. -/
def Element.descendants : Element → List Element
  | .mk _ _ _ cs _ => go cs
where
  go : List Element → List Element
  | [] => []
  | c :: rest => c :: c.descendants ++ go rest

/-- Model of `"".join(e.itertext())`: the text of the element and, for each
child in order, its itertext followed by its tail. -/
def Element.itertextStr : Element → String
  | .mk _ _ t cs _ => (t.getD "") ++ go cs
where
  go : List Element → String
  | [] => ""
  | c :: rest => c.itertextStr ++ (c.tail.getD "") ++ go rest

/-- Model of `e.get(key)`: first attribute with the key, if any. -/
def Element.getAttr (e : Element) (k : String) : Option String :=
  (e.attrs.find? (fun p => p.1 == k)).map (fun p => p.2)

/-- Model of `e.get(key, default)`. -/
def Element.getAttrD (e : Element) (k d : String) : String :=
  (e.getAttr k).getD d

/-- Model of `e.findall(".//t")`: descendants with the given tag. -/
def descsWithTag (e : Element) (t : String) : List Element :=
  e.descendants.filter (fun x => x.tag == t)

/-- Model of `e.find(".//t")`. -/
def firstDescWithTag (e : Element) (t : String) : Option Element :=
  (descsWithTag e t).head?

/-- Model of `e.findall(".//t[@k=v]")`. -/
def descsWithTagAttr (e : Element) (t k v : String) : List Element :=
  e.descendants.filter (fun x => x.tag == t && x.getAttr k == some v)

/-- Model of `e.findall(".//t1/t2")` as ElementPath evaluates it: for each
descendant with tag `t1` in document order, its children with tag `t2`. -/
def findPath2 (e : Element) (t1 t2 : String) : List Element :=
  (descsWithTag e t1).flatMap (fun p => p.children.filter (fun x => x.tag == t2))

/-- Model of `e.find(".//t1/t2")`. -/
def findPath2First (e : Element) (t1 t2 : String) : Option Element :=
  (findPath2 e t1 t2).head?

/-- Model of `e.find("./t")`: first direct child with the tag. -/
def firstChildTag (e : Element) (t : String) : Option Element :=
  (e.children.filter (fun x => x.tag == t)).head?

/-! ## The parsed record -/

/-- One active ingredient as extracted by `_parse_spl_xml`. -/
structure Ingredient where
  name : String
  strength : String
deriving DecidableEq, Repr

/-- The dictionary `_parse_spl_xml` returns on success. -/
structure ParsedData where
  set_id : Option String
  title : String
  form_code_display : String
  route_code_display : String
  active : List Ingredient
  inactive : List String
deriving DecidableEq, Repr

/-! ## Embedding of `_parse_spl_xml` (dailymed_client.py lines 309-474) -/

/-- The sections whose `./code` element carries the given code attribute.
The Python loop reassigns on every match, so the last one wins. -/
def sectionsWithCode (root : Element) (code : String) : List Element :=
  (descsWithTag root "section").filter (fun sec =>
    match firstChildTag sec "code" with
    | some ce => ce.getAttr "code" == some code
    | none => false)

/-- The data-elements section (`code == "48780-1"`), last match winning. -/
def findDataSection (root : Element) : Option Element :=
  (sectionsWithCode root "48780-1").getLast?

/-- The inactive-ingredient section (`code == "51727-6"`), last match
winning. -/
def findInactiveSection (root : Element) : Option Element :=
  (sectionsWithCode root "51727-6").getLast?

/-- Title resolution step 1: the manufactured-product name inside the
data-elements section (direct text if truthy, else the whitespace-collapsed
descendant text). -/
def resolveTitleStep1 (ds : Option Element) : Option String :=
  match ds with
  | none => none
  | some d =>
    match findPath2First d "manufacturedProduct" "name" with
    | none => none
    | some pn =>
      let t1 : Option String :=
        if optTruthy pn.text then some (normJoin (pyStrOfOpt pn.text)) else none
      if optTruthy t1 then t1 else some (normJoin pn.itertextStr)

/-- The names collected for the synthesized title: for every structured
active ingredient under the data-elements section whose name element exists
and has truthy text, the stripped text. -/
def collectActiveTitleNames (d : Element) : List String :=
  (descsWithTagAttr d "ingredient" "classCode" "ACTIB").filterMap (fun ing =>
    match findPath2First ing "ingredientSubstance" "name" with
    | some ne => if optTruthy ne.text then some (pyStrip (pyStrOfOpt ne.text)) else none
    | none => none)

/-- Full title resolution of `_parse_spl_xml` (lines 354-400): product name
in the data section, else document title, with the generic
"drug facts" placeholder replaced when possible. -/
def resolveTitle (root : Element) (ds : Option Element) : Option String :=
  let s1 := resolveTitleStep1 ds
  if optTruthy s1 then s1
  else
    match firstDescWithTag root "title" with
    | none => s1
    | some te =>
      let t0 := normJoin (pyStrOfOpt te.text)
      let t :=
        if t0 = "" then normJoin te.itertextStr else t0
      if t ≠ "" && (pyLower t == "drug facts" || pyLower t == "drug facts label") then
        match ds with
        | some d =>
          match findPath2First d "manufacturedProduct" "name" with
          | some pe =>
            let pt := normJoin pe.itertextStr
            if pt ≠ "" then some pt else some t
          | none =>
            let ans := collectActiveTitleNames d
            if ans.isEmpty then some t else some (joinSep " / " ans)
        | none =>
          match findPath2First root "manufacturedProduct" "name" with
          | some pe =>
            let pt := normJoin pe.itertextStr
            if pt ≠ "" then some pt else some t
          | none => some t
      else some t

/-- Structured active-ingredient extraction (lines 415-427). A name element
that exists but has `None` text raises `AttributeError` at `name.title()`;
an absent name element degrades to the sentinel "Unknown". -/
def extractActives (d : Element) : Except String (List Ingredient) :=
  go (descsWithTagAttr d "ingredient" "classCode" "ACTIB")
where
  go : List Element → Except String (List Ingredient)
  | [] => .ok []
  | ing :: rest =>
    let nameOpt : Option String :=
      match findPath2First ing "ingredientSubstance" "name" with
      | some ne => ne.text
      | none => some "Unknown"
    match nameOpt with
    | none => .error "AttributeError: NoneType object has no attribute title"
    | some nm =>
      let strength :=
        match findPath2First ing "quantity" "numerator" with
        | some num => pyStrip (num.getAttrD "value" "N/A" ++ " " ++ num.getAttrD "unit" "")
        | none => "Strength not specified"
      match go rest with
      | .ok l => .ok ({ name := pyTitle nm, strength := strength } :: l)
      | .error e => .error e

/-- Structured inactive-ingredient extraction (lines 430-433): the set of
stripped, upper-cased names. A name element that exists but has `None` text
raises `AttributeError` at `.strip()`. -/
def structuredInactive (d : Element) : Except String (List String) :=
  go (descsWithTagAttr d "ingredient" "classCode" "IACT") []
where
  go : List Element → List String → Except String (List String)
  | [], acc => .ok acc
  | ing :: rest, acc =>
    match findPath2First ing "ingredientSubstance" "name" with
    | none => go rest acc
    | some ne =>
      match ne.text with
      | none => .error "AttributeError: NoneType object has no attribute strip"
      | some t => go rest (setAdd (pyUpper (pyStrip t)) acc)

/-- Processing of one comma-separated fragment of the excipient prose
(lines 451-460): strip and upper-case it; split further on the token
" AND " when present; add the non-empty results to the set. -/
def addTextFragments (acc : List String) (item : String) : List String :=
  let clean := pyUpper (pyStrip item)
  if clean ≠ "" then
    if pyIn " AND " clean then
      (pySplitOnStr " AND " clean).foldl (fun acc2 sub =>
        if pyStrip sub ≠ "" then setAdd (pyStrip sub) acc2 else acc2) acc
    else setAdd clean acc
  else acc

/-- Free-text excipient extraction (lines 436-460): join the non-empty
paragraph texts, lower-case, strip the "inactive ingredients" prefix and
trailing punctuation, split on commas and on the token " AND ", and collect
the stripped upper-cased fragments. -/
def textInactive (isec : Element) : List String :=
  let paras := (descsWithTag isec "paragraph").filterMap (fun p =>
    let t := pyStrip p.itertextStr
    if t = "" then none else some t)
  if paras.isEmpty then []
  else
    let full0 := pyLower (joinSep " " paras)
    let full1 :=
      if pyStartsWith "inactive ingredients" full0 then pyStrip (sliceFrom 20 full0)
      else full0
    let full := pyStripDotColonSpace full1
    (pySplitOnStr "," full).foldl addTextFragments []

/-- Final combination (lines 462-465): sorted title-cased union of both
sets with empty strings excluded. -/
def combineInactive (structured txt : List String) : List String :=
  pySorted (((setUnion structured txt).filter (fun s => s ≠ "")).map pyTitle)

/-- The traversal body of `_parse_spl_xml` inside the `try` block. An
`Except.error` models an exception raised during traversal (caught by the
enclosing handler). -/
def traverseSPL (root : Element) : Except String ParsedData :=
  let setid := (firstDescWithTag root "setId").bind (fun e => e.getAttr "root")
  let ds := findDataSection root
  let isec := findInactiveSection root
  let titleOpt := resolveTitle root ds
  let title := match titleOpt with
    | some t => if t = "" then "N/A" else t
    | none => "N/A"
  let form := match ds with
    | some d =>
      match findPath2First d "manufacturedProduct" "formCode" with
      | some fe => fe.getAttrD "displayName" "N/A"
      | none => "N/A"
    | none => "N/A"
  let route := match ds with
    | some d =>
      match findPath2First d "substanceAdministration" "routeCode" with
      | some re => re.getAttrD "displayName" "N/A"
      | none => "N/A"
    | none => "N/A"
  match (match ds with | some d => extractActives d | none => .ok []) with
  | .error e => .error e
  | .ok actives =>
    match (match ds with | some d => structuredInactive d | none => .ok []) with
    | .error e => .error e
    | .ok structs =>
      let txts := match isec with | some i => textInactive i | none => []
      .ok { set_id := setid, title := title, form_code_display := form,
            route_code_display := route, active := actives,
            inactive := combineInactive structs txts }

/-- Model of `_parse_spl_xml` itself. The input is the outcome of
`ET.fromstring` on the namespace-stripped markup: `none` when the markup is
syntactically malformed (`ET.ParseError`), `some root` otherwise. The
result is the parsed dictionary or a `ParseFailure` diagnostic (the Python
code returns `None` after printing the diagnostic). -/
def parse_spl_xml (inp : Option Element) : Except String ParsedData :=
  match inp with
  | none => .error "Failed to parse XML: syntax error"
  | some root =>
    match traverseSPL root with
    | .ok d => .ok d
    | .error e => .error ("An unexpected error occurred during XML parsing: " ++ e)

/-! ## Embedding of the filter predicate of `search_with_filters`
(dailymed_client.py lines 545-611) -/

/-- The prepared filter keywords (the local variables `route_filter`,
`form_filter`, `only_act_filts`, `inc_act`, `exc_act`, `inc_inact`,
`exc_inact` of `search_with_filters`), all lower-cased. -/
structure Filters where
  route_filter : Option String
  form_filter : List String
  only_act_filts : List String
  inc_act : List String
  exc_act : List String
  inc_inact : List String
  exc_inact : List String
deriving DecidableEq, Repr

/-- Keyword preparation (lines 546-552): lower-case everything; a `None` or
empty route becomes no route constraint; `None` keyword lists become empty
sets. -/
def mkFilters (route : Option String)
    (form only_active include_active exclude_active
     include_inactive exclude_inactive : List String) : Filters where
  route_filter := match route with
    | none => none
    | some r => if r = "" then none else some (pyLower r)
  form_filter := form.map pyLower
  only_act_filts := only_active.map pyLower
  inc_act := include_active.map pyLower
  exc_act := exclude_active.map pyLower
  inc_inact := include_inactive.map pyLower
  exc_inact := exclude_inactive.map pyLower

/-- The lower-cased active-ingredient names of a parsed label. -/
def activeNamesLower (d : ParsedData) : List String :=
  d.active.map (fun i => pyLower i.name)

/-- The lower-cased inactive-ingredient names of a parsed label. -/
def inactiveLower (d : ParsedData) : List String :=
  d.inactive.map pyLower

/-- The filtering logic of `search_with_filters` (lines 573-611), written as
the same sequence of reject-and-continue checks. -/
def passesFilters (f : Filters) (d : ParsedData) : Bool :=
  if optTruthy f.route_filter &&
      !pyIn (f.route_filter.getD "") (pyLower d.route_code_display) then false
  else if !f.form_filter.isEmpty &&
      !(f.form_filter.any (fun k => pyIn k (pyLower d.form_code_display))) then false
  else if !f.inc_act.isEmpty &&
      !(f.inc_act.all (fun k => (activeNamesLower d).any (fun a => pyIn k a))) then false
  else if !f.exc_act.isEmpty &&
      (f.exc_act.any (fun k => (activeNamesLower d).any (fun a => pyIn k a))) then false
  else if !f.inc_inact.isEmpty &&
      !(f.inc_inact.all (fun k => (inactiveLower d).any (fun a => pyIn k a))) then false
  else if !f.exc_inact.isEmpty &&
      (f.exc_inact.any (fun k => (inactiveLower d).any (fun a => pyIn k a))) then false
  else if !f.only_act_filts.isEmpty &&
      !((activeNamesLower d).all (fun a => f.only_act_filts.any (fun k => pyIn k a))) then false
  else true

/-- Route clause: satisfied when absent or when the route keyword is a
substring of the lower-cased route text. -/
def clauseRoute (f : Filters) (d : ParsedData) : Bool :=
  !(optTruthy f.route_filter &&
    !pyIn (f.route_filter.getD "") (pyLower d.route_code_display))

/-- Form clause: satisfied when absent or when at least one form keyword is
a substring of the lower-cased form text. -/
def clauseForm (f : Filters) (d : ParsedData) : Bool :=
  !(!f.form_filter.isEmpty &&
    !(f.form_filter.any (fun k => pyIn k (pyLower d.form_code_display))))

/-- Include-active clause: every keyword must match some active name. -/
def clauseIncludeActive (f : Filters) (d : ParsedData) : Bool :=
  !(!f.inc_act.isEmpty &&
    !(f.inc_act.all (fun k => (activeNamesLower d).any (fun a => pyIn k a))))

/-- Exclude-active clause: no keyword may match any active name. -/
def clauseExcludeActive (f : Filters) (d : ParsedData) : Bool :=
  !(!f.exc_act.isEmpty &&
    (f.exc_act.any (fun k => (activeNamesLower d).any (fun a => pyIn k a))))

/-- Include-inactive clause. -/
def clauseIncludeInactive (f : Filters) (d : ParsedData) : Bool :=
  !(!f.inc_inact.isEmpty &&
    !(f.inc_inact.all (fun k => (inactiveLower d).any (fun a => pyIn k a))))

/-- Exclude-inactive clause (one-directional containment: keyword in field). -/
def clauseExcludeInactive (f : Filters) (d : ParsedData) : Bool :=
  !(!f.exc_inact.isEmpty &&
    (f.exc_inact.any (fun k => (inactiveLower d).any (fun a => pyIn k a))))

/-- Only-active clause: every active name must match some keyword. -/
def clauseOnlyActive (f : Filters) (d : ParsedData) : Bool :=
  !(!f.only_act_filts.isEmpty &&
    !((activeNamesLower d).all (fun a => f.only_act_filts.any (fun k => pyIn k a))))

/-! ## Embedding of the excipient categorization helper
(search/api_views.py lines 450-462) -/

/-- The loop computing `contains_excluded_excipient`: bidirectional
substring containment between each lower-cased excipient keyword and each
lower-cased inactive-ingredient name. -/
def containsExcludedExcipient (excipientsLower : List String)
    (inactive : List String) : Bool :=
  if excipientsLower.isEmpty then false
  else excipientsLower.any (fun exc =>
    (inactive.map pyLower).any (fun ing => pyIn exc ing || pyIn ing exc))

/-! ## Embedding of the streaming search `search_with_filters`
(dailymed_client.py lines 505-625) -/

/-- The response of the per-candidate document fetch: a transport error, a
non-string payload, or the markup (already taken through `ET.fromstring`,
so `xml none` is markup with a syntax error). -/
inductive DocFetch where
  | fetchError
  | notStr
  | xml (doc : Option Element)

/-- One entry of the initial search's `data` list together with the remote
response its `setid` would produce. -/
structure Candidate where
  setid : Option String
  fetch : DocFetch

/-- The outcome of the single initial `search_spls` call. -/
inductive SearchOutcome where
  | transportError
  | ok (data : List Candidate) (metadata : Option Unit)

/-- Processing of one candidate inside the iteration loop (lines 556-619):
the values it yields and the diagnostics it logs. -/
def processCandidate (f : Filters) (c : Candidate) :
    List (Option ParsedData) × List String :=
  if !optTruthy c.setid then ([], [])
  else
    match c.fetch with
    | .fetchError => ([], ["[ERROR] Failed to process SET ID"])
    | .notStr => ([], [])
    | .xml doc =>
      match parse_spl_xml doc with
      | .error e => ([], [e])
      | .ok d => if passesFilters f d then ([some d], []) else ([], [])

/-- The iteration over all candidates, in order. -/
def iterCandidates (f : Filters) : List Candidate → List (Option ParsedData) × List String
  | [] => ([], [])
  | c :: rest =>
    let r := processCandidate f c
    let rs := iterCandidates f rest
    (r.1 ++ rs.1, r.2 ++ rs.2)

/-- What a run of the generator produces: the sequence of yielded values
(`none` models Python's bare `yield`, which yields the value `None`) and
the warnings/diagnostics emitted. -/
structure StreamResult where
  yields : List (Option ParsedData)
  warnings : List String
deriving DecidableEq, Repr

/-- Model of the generator `search_with_filters`: on a transport error of
the initial search it warns and does a bare `yield` (lines 533-536); on an
empty candidate list it prints and does a bare `yield` (lines 540-543);
otherwise it iterates the candidates in order. -/
def search_with_filters (outcome : SearchOutcome) (f : Filters) : StreamResult :=
  match outcome with
  | .transportError =>
    { yields := [none], warnings := ["Initial API search failed"] }
  | .ok data _ =>
    if data.isEmpty then { yields := [none], warnings := ["No initial results found."] }
    else
      let r := iterCandidates f data
      { yields := r.1, warnings := r.2 }

/-! ## Embedding of the pagination advisory of `print_pagination_info`
(dailymed_client.py lines 8-41) -/

/-- The `metadata` object: integer fields, possibly absent (`metadata.get`
defaults `current_page` to 1 and `total_pages` to 0). -/
structure PageMeta where
  current_page : Option Int
  total_pages : Option Int
deriving DecidableEq, Repr

/-- The continuation advisory computed by `print_pagination_info`: the next
page index when `current_page < total_pages`, nothing otherwise. -/
def pagination_next_page (m : PageMeta) : Option Int :=
  let c := m.current_page.getD 1
  let t := m.total_pages.getD 0
  if c < t then some (c + 1) else none

/-! ## Concrete fixtures -/

/-- Leaf element with text. -/
def txtleaf (tag t : String) : Element := .mk tag [] (some t) [] none

/-- Element with children only. -/
def elem (tag : String) (cs : List Element) : Element := .mk tag [] none cs none

/-- Element with attributes and children. -/
def elemA (tag : String) (attrs : List (String × String)) (cs : List Element) : Element :=
  .mk tag attrs none cs none

/-- A structured active ingredient with the given substance name. -/
def mkActib (nm : String) : Element :=
  elemA "ingredient" [("classCode", "ACTIB")]
    [elem "ingredientSubstance" [txtleaf "name" nm]]

/-- A structured inactive ingredient with the given substance name. -/
def mkIact (nm : String) : Element :=
  elemA "ingredient" [("classCode", "IACT")]
    [elem "ingredientSubstance" [txtleaf "name" nm]]

/-- Filters with no criteria at all. -/
def emptyFilters : Filters := mkFilters none [] [] [] [] [] []

/-- Criteria of the C3 example: `include_active = {"aspirin"}`,
`exclude_active = {"caffeine"}`. -/
def filtersC3 : Filters := mkFilters none [] [] ["aspirin"] ["caffeine"] [] []

/-- Label of the C3 example: active ingredients Aspirin and Caffeine. -/
def labelC3 : ParsedData :=
  { set_id := none, title := "Example", form_code_display := "N/A",
    route_code_display := "N/A",
    active := [{ name := "Aspirin", strength := "81 mg" },
               { name := "Caffeine", strength := "40 mg" }],
    inactive := [] }

/-- Criteria of the C4 example: `only_active = {"acetaminophen"}`. -/
def filtersC4 : Filters := mkFilters none [] ["acetaminophen"] [] [] [] []

/-- Label with active list `["Acetaminophen"]`. -/
def labelC4a : ParsedData :=
  { set_id := none, title := "Example", form_code_display := "N/A",
    route_code_display := "N/A",
    active := [{ name := "Acetaminophen", strength := "500 mg" }],
    inactive := [] }

/-- Label with active list `["Acetaminophen", "Diphenhydramine"]`. -/
def labelC4b : ParsedData :=
  { set_id := none, title := "Example", form_code_display := "N/A",
    route_code_display := "N/A",
    active := [{ name := "Acetaminophen", strength := "500 mg" },
               { name := "Diphenhydramine", strength := "25 mg" }],
    inactive := [] }

/-! ## Claim theorems -/

/-- Boolean shape shared by the filter chain: a sequence of
reject-and-continue checks is the conjunction of the negated checks. -/
theorem rejectChain_eq_conj (b1 b2 b3 b4 b5 b6 b7 : Bool) :
    (if b1 then false else if b2 then false else if b3 then false
     else if b4 then false else if b5 then false else if b6 then false
     else if b7 then false else true)
    = (!b1 && !b2 && !b3 && !b4 && !b5 && !b6 && !b7) := by
  cases b1 <;> cases b2 <;> cases b3 <;> cases b4 <;> cases b5 <;> cases b6 <;>
    cases b7 <;> rfl

/-- C3: the filter predicate is the conjunction of the seven clauses in the
fixed order route, form, include-active, exclude-active, include-inactive,
exclude-inactive, only-active; absent criteria are always satisfied; and
the label with actives ["Aspirin", "Caffeine"] is rejected under
include_active = {"aspirin"}, exclude_active = {"caffeine"} because the
exclude clause fails even though the include clause holds. -/
theorem filter_conjunction_fixed_order :
    (∀ (f : Filters) (d : ParsedData),
      passesFilters f d =
        (clauseRoute f d &&
         clauseForm f d && clauseIncludeActive f d && clauseExcludeActive f d &&
         clauseIncludeInactive f d && clauseExcludeInactive f d &&
         clauseOnlyActive f d)) ∧
    (∀ d : ParsedData, passesFilters emptyFilters d = true) ∧
    passesFilters filtersC3 labelC3 = false ∧
    clauseExcludeActive filtersC3 labelC3 = false ∧
    clauseIncludeActive filtersC3 labelC3 = true := by
  refine ⟨?_, ?_, by decide, by decide, by decide⟩
  · intro f d
    exact rejectChain_eq_conj _ _ _ _ _ _ _
  · intro d
    simp [passesFilters, emptyFilters, mkFilters, optTruthy]

/-- C4: with a non-empty only-active keyword set, acceptance forces every
lower-cased active-ingredient name to contain at least one keyword as a
substring; `only_active = {"acetaminophen"}` accepts the label with actives
["Acetaminophen"] and rejects the one with actives
["Acetaminophen", "Diphenhydramine"]. -/
theorem only_active_boundary :
    (∀ (f : Filters) (d : ParsedData), f.only_act_filts ≠ [] →
      passesFilters f d = true →
      ∀ a ∈ activeNamesLower d, f.only_act_filts.any (fun k => pyIn k a) = true) ∧
    passesFilters filtersC4 labelC4a = true ∧
    passesFilters filtersC4 labelC4b = false := by
  refine ⟨?_, by decide, by decide⟩
  intro f d hne hpass a ha
  unfold passesFilters at hpass
  split_ifs at hpass with h1 h2 h3 h4 h5 h6 h7
  have hempty : f.only_act_filts.isEmpty = false := by
    cases hl : f.only_act_filts with
    | nil => exact absurd hl hne
    | cons x xs => simp
  simp only [hempty, Bool.not_false, Bool.true_and, Bool.not_eq_true] at h7
  have hall : (activeNamesLower d).all
      (fun a => f.only_act_filts.any (fun k => pyIn k a)) = true := by
    cases hv : (activeNamesLower d).all
        (fun a => f.only_act_filts.any (fun k => pyIn k a))
    · rw [hv] at h7; simp at h7
    · rfl
  exact List.all_eq_true.mp hall a ha

/-- C4 witness: the general part of `only_active_boundary` applied at the
concrete filters and label. -/
theorem only_active_boundary_witness :
    filtersC4.only_act_filts.any (fun k => pyIn k (pyLower "Acetaminophen")) = true := by
  have h := only_active_boundary.1 filtersC4 labelC4a (by decide) (by decide)
  exact h (pyLower "Acetaminophen") (by decide)

/-- C9: the continuation advisory reports a next page exactly when
`current_page < total_pages`, in which case it is `current_page + 1`;
in particular (2, 5) yields 3 and (5, 5) yields nothing. -/
theorem pagination_metadata_advisory :
    (∀ c t : Int,
      (pagination_next_page ⟨some c, some t⟩).isSome = decide (c < t)) ∧
    (∀ c t : Int, c < t →
      pagination_next_page ⟨some c, some t⟩ = some (c + 1)) ∧
    pagination_next_page ⟨some 2, some 5⟩ = some 3 ∧
    pagination_next_page ⟨some 5, some 5⟩ = none := by
  refine ⟨?_, ?_, by decide, by decide⟩
  · intro c t
    unfold pagination_next_page
    by_cases h : c < t <;> simp [h]
  · intro c t h
    unfold pagination_next_page
    simp [h]

/-- C9 witness: the advisory rule applied at `current_page = 2`,
`total_pages = 5`. -/
theorem pagination_metadata_advisory_witness :
    pagination_next_page ⟨some 2, some 5⟩ = some (2 + 1) :=
  pagination_metadata_advisory.2.1 2 5 (by decide)

/-- Filters of the C5 example: `exclude_inactive = {"sodium lauryl sulfate"}`
and nothing else. -/
def filtersC5 : Filters := mkFilters none [] [] [] [] [] ["sodium lauryl sulfate"]

/-- Label of the C5 example: inactive list `["Sulfate"]`. -/
def labelC5 : ParsedData :=
  { set_id := none, title := "Example", form_code_display := "N/A",
    route_code_display := "N/A", active := [], inactive := ["Sulfate"] }

/-- C5: the categorization helper marks a label exactly when some lower-cased
inactive name and some keyword are in bidirectional containment; a filter
exclude-inactive match always implies a categorization match (the filter is
one-directional, hence stricter); and the two semantics differ: the
keyword "sodium lauryl sulfate" against inactive list ["Sulfate"] is
categorized as containing the excipient while the filter clause does not
reject (the label passes the filter). -/
theorem excipient_bidirectional_vs_filter :
    (∀ (E I : List String),
      containsExcludedExcipient E I = true ↔
        ∃ ing ∈ I.map pyLower, ∃ kw ∈ E,
          (pyIn kw ing = true ∨ pyIn ing kw = true)) ∧
    (∀ (f : Filters) (d : ParsedData),
      clauseExcludeInactive f d = false →
      containsExcludedExcipient f.exc_inact d.inactive = true) ∧
    (containsExcludedExcipient filtersC5.exc_inact labelC5.inactive = true ∧
     clauseExcludeInactive filtersC5 labelC5 = true ∧
     passesFilters filtersC5 labelC5 = true) := by
  refine ⟨?_, ?_, by decide, by decide, by decide⟩
  · intro E I
    unfold containsExcludedExcipient
    by_cases hE : E.isEmpty = true
    · have hnil : E = [] := List.isEmpty_iff.mp hE
      subst hnil
      simp
    · rw [if_neg hE]
      rw [List.any_eq_true]
      constructor
      · rintro ⟨kw, hkw, hany⟩
        rw [List.any_eq_true] at hany
        obtain ⟨ing, hing, hb⟩ := hany
        exact ⟨ing, hing, kw, hkw, by simpa using Bool.or_eq_true_iff.mp hb⟩
      · rintro ⟨ing, hing, kw, hkw, hb⟩
        refine ⟨kw, hkw, List.any_eq_true.mpr ⟨ing, hing, ?_⟩⟩
        rcases hb with hb | hb <;> simp [hb]
  · intro f d hrej
    unfold clauseExcludeInactive at hrej
    have h : (!f.exc_inact.isEmpty &&
        f.exc_inact.any (fun k => (inactiveLower d).any (fun a => pyIn k a))) = true := by
      cases hv : (!f.exc_inact.isEmpty &&
          f.exc_inact.any (fun k => (inactiveLower d).any (fun a => pyIn k a)))
      · rw [hv] at hrej; simp at hrej
      · rfl
    rw [Bool.and_eq_true] at h
    obtain ⟨hne, hany⟩ := h
    have hne2 : ¬(f.exc_inact.isEmpty = true) := by
      intro hcontra
      rw [hcontra] at hne
      simp at hne
    unfold containsExcludedExcipient
    rw [if_neg hne2]
    rw [List.any_eq_true] at hany ⊢
    obtain ⟨kw, hkw, hka⟩ := hany
    rw [List.any_eq_true] at hka
    obtain ⟨ing, hing, hin⟩ := hka
    refine ⟨kw, hkw, List.any_eq_true.mpr ⟨ing, ?_, by simp [hin]⟩⟩
    simpa [inactiveLower] using hing

/-- C5 witness: the filter-implies-categorization direction applied at a
concrete rejecting instance (keyword "starch" against inactive list
["Corn Starch"]). -/
theorem excipient_bidirectional_vs_filter_witness :
    containsExcludedExcipient (mkFilters none [] [] [] [] [] ["starch"]).exc_inact
      ({ set_id := none, title := "Example", form_code_display := "N/A",
         route_code_display := "N/A", active := [],
         inactive := ["Corn Starch"] } : ParsedData).inactive = true :=
  excipient_bidirectional_vs_filter.2.1
    (mkFilters none [] [] [] [] [] ["starch"])
    { set_id := none, title := "Example", form_code_display := "N/A",
      route_code_display := "N/A", active := [], inactive := ["Corn Starch"] }
    (by decide)

/-- C7 counterexample input: any criteria (none are consulted before the
initial search). -/
theorem streaming_transport_error_counterexample :
    (search_with_filters .transportError emptyFilters).yields = [none] ∧
    (search_with_filters .transportError emptyFilters).yields ≠ [] :=
  ⟨rfl, by decide⟩

/-- C7 (amended): on a transport error of the initial search the generator
yields exactly one bare-`yield` placeholder (`None`) and stops — zero
parsed-label results — and surfaces a warning; an empty candidate list
likewise yields exactly the placeholder and zero parsed-label results. -/
theorem streaming_transport_error_amended :
    (∀ f : Filters,
      (search_with_filters .transportError f).yields = [none] ∧
      (search_with_filters .transportError f).yields.filterMap id
        = ([] : List ParsedData) ∧
      (search_with_filters .transportError f).warnings ≠ []) ∧
    (∀ (f : Filters) (m : Option Unit),
      (search_with_filters (.ok [] m) f).yields = [none] ∧
      (search_with_filters (.ok [] m) f).yields.filterMap id
        = ([] : List ParsedData)) := by
  constructor
  · intro f
    exact ⟨rfl, rfl, by simp [search_with_filters]⟩
  · intro f m
    exact ⟨rfl, rfl⟩

/-- The data-elements section of the C10 document: one structured active
ingredient whose ingredient-substance name element exists but carries no
text. -/
def dsMissingNameText : Element :=
  elemA "section" [] [
    elemA "code" [("code", "48780-1")] [],
    elemA "ingredient" [("classCode", "ACTIB")]
      [elem "ingredientSubstance" [elem "name" []]]
  ]

/-- The C10 document. -/
def docMissingNameText : Element :=
  elem "document" [
    txtleaf "title" "Something",
    elem "component" [dsMissingNameText]
  ]

/-- C10: a well-formed document whose active-ingredient name element is
present but has no text makes the whole parse fail with a ParseFailure
(the `None` reaches `name.title()` and the `AttributeError` is caught by
the top-level handler), instead of degrading that ingredient to the
"Unknown" sentinel. -/
theorem missing_name_text_fails_whole_parse :
    parse_spl_xml (some docMissingNameText) =
      .error ("An unexpected error occurred during XML parsing: " ++
        "AttributeError: NoneType object has no attribute title") ∧
    (∀ d : ParsedData, parse_spl_xml (some docMissingNameText) ≠ .ok d) ∧
    (∃ ing ne,
      (descsWithTagAttr dsMissingNameText "ingredient" "classCode" "ACTIB") = [ing] ∧
      findPath2First ing "ingredientSubstance" "name" = some ne ∧
      ne.text = none) := by
  refine ⟨rfl, ?_, ?_⟩
  · intro d h
    rw [(rfl : parse_spl_xml (some docMissingNameText) =
      .error ("An unexpected error occurred during XML parsing: " ++
        "AttributeError: NoneType object has no attribute title"))] at h
    exact Except.noConfusion h
  · exact ⟨_, _, rfl, rfl, rfl⟩

/-- The minimal document with no optional structure at all. -/
def emptyDoc : Element := elem "document" []

/-- C6: the parse is total — every input yields either a parsed record or a
ParseFailure diagnostic; a syntax error yields a non-empty diagnostic; a
failure arises exactly from a syntax error or from an exception inside the
traversal; and absence of every optional section resolves to the documented
sentinels rather than an error. -/
theorem parse_total_and_failure_modes :
    (∀ inp : Option Element,
      (∃ d, parse_spl_xml inp = .ok d) ∨ (∃ m, parse_spl_xml inp = .error m)) ∧
    (∃ m, parse_spl_xml none = .error m ∧ m ≠ "") ∧
    (∀ (inp : Option Element) (m : String),
      parse_spl_xml inp = .error m ↔
        (inp = none ∧ m = "Failed to parse XML: syntax error") ∨
        (∃ root e, inp = some root ∧ traverseSPL root = .error e ∧
          m = "An unexpected error occurred during XML parsing: " ++ e)) ∧
    parse_spl_xml (some emptyDoc) =
      .ok { set_id := none, title := "N/A", form_code_display := "N/A",
            route_code_display := "N/A", active := [], inactive := [] } := by
  refine ⟨?_, ⟨_, rfl, by decide⟩, ?_, rfl⟩
  · intro inp
    cases inp with
    | none => right; exact ⟨_, rfl⟩
    | some root =>
      cases h : traverseSPL root with
      | ok d => left; exact ⟨d, by simp [parse_spl_xml, h]⟩
      | error e =>
        right
        exact ⟨"An unexpected error occurred during XML parsing: " ++ e,
          by simp [parse_spl_xml, h]⟩
  · intro inp m
    cases inp with
    | none =>
      constructor
      · intro h
        left
        refine ⟨rfl, ?_⟩
        have h2 : ("Failed to parse XML: syntax error" : String) = m := by
          simpa [parse_spl_xml] using h
        exact h2.symm
      · rintro (⟨_, rfl⟩ | ⟨root, e, hcontra, _⟩)
        · rfl
        · exact Option.noConfusion hcontra
    | some root =>
      constructor
      · intro h
        right
        cases ht : traverseSPL root with
        | ok d => simp [parse_spl_xml, ht] at h
        | error e =>
          refine ⟨root, e, rfl, ht, ?_⟩
          have h2 : ("An unexpected error occurred during XML parsing: " ++ e) = m := by
            simpa [parse_spl_xml, ht] using h
          exact h2.symm
      · rintro (⟨hcontra, _⟩ | ⟨root2, e, heq, ht, rfl⟩)
        · exact Option.noConfusion hcontra
        · obtain rfl : root2 = root := (Option.some.inj heq).symm
          simp [parse_spl_xml, ht]

/-- A per-candidate failure: the document fetch raises, or the fetched
markup fails to parse. -/
def candidateFails (c : Candidate) : Prop :=
  c.fetch = .fetchError ∨
    ∃ doc, c.fetch = .xml doc ∧ ∃ m, parse_spl_xml doc = .error m

/-- C8: a failing candidate contributes no yields, logs a diagnostic (when
its setid is truthy, which is required to reach the fetch at all), and its
presence never disturbs the processing of the remaining candidates; the
iteration is a homomorphism over list append, so no per-candidate failure
aborts the stream. -/
theorem per_candidate_failure_isolated (f : Filters) (c : Candidate)
    (hfail : candidateFails c) :
    (processCandidate f c).1 = [] ∧
    (optTruthy c.setid = true → (processCandidate f c).2 ≠ []) ∧
    (∀ xs ys : List Candidate,
      (iterCandidates f (xs ++ c :: ys)).1 =
        (iterCandidates f xs).1 ++ (iterCandidates f ys).1) ∧
    (∀ as bs : List Candidate,
      (iterCandidates f (as ++ bs)).1 =
        (iterCandidates f as).1 ++ (iterCandidates f bs).1) := by
  have happ : ∀ as bs : List Candidate,
      (iterCandidates f (as ++ bs)).1 =
        (iterCandidates f as).1 ++ (iterCandidates f bs).1 := by
    intro as bs
    induction as with
    | nil => simp [iterCandidates]
    | cons a rest ih => simp [iterCandidates, ih]
  have hyields : (processCandidate f c).1 = [] := by
    unfold processCandidate
    cases htr : optTruthy c.setid
    · simp
    · simp only [htr, Bool.not_true, Bool.false_eq_true, if_false]
      rcases hfail with hf | ⟨doc, hf, m, hm⟩
      · rw [hf]
      · simp [hf, hm]
  have hlog : optTruthy c.setid = true → (processCandidate f c).2 ≠ [] := by
    intro htr
    unfold processCandidate
    simp only [htr, Bool.not_true, Bool.false_eq_true, if_false]
    rcases hfail with hf | ⟨doc, hf, m, hm⟩
    · rw [hf]; simp
    · simp [hf, hm]
  refine ⟨hyields, hlog, ?_, happ⟩
  intro xs ys
  rw [happ xs (c :: ys)]
  have hcons : (iterCandidates f (c :: ys)).1 =
      (processCandidate f c).1 ++ (iterCandidates f ys).1 := rfl
  rw [hcons, hyields]
  simp

/-- A candidate whose fetch raises. -/
def failingCandidate : Candidate := { setid := some "bad-set-id", fetch := .fetchError }

/-- Two candidates that never reach the network in the model (falsy setid),
used to surround the failing one. -/
def quietCandidateA : Candidate := { setid := some "a", fetch := .notStr }

def quietCandidateB : Candidate := { setid := some "b", fetch := .notStr }

/-- C8 witness: the isolation theorem applied at a concrete failing
candidate between two others. -/
theorem per_candidate_failure_isolated_witness :
    (iterCandidates emptyFilters
        ([quietCandidateA] ++ failingCandidate :: [quietCandidateB])).1 =
      (iterCandidates emptyFilters [quietCandidateA]).1 ++
      (iterCandidates emptyFilters [quietCandidateB]).1 :=
  (per_candidate_failure_isolated emptyFilters failingCandidate
    (Or.inl rfl)).2.2.1 [quietCandidateA] [quietCandidateB]

/-- The data-elements section of the C2 example: no manufactured-product
name, two structured active ingredients. -/
def dsAspirinCaffeine : Element :=
  elemA "section" [] [
    elemA "code" [("code", "48780-1")] [],
    mkActib "Aspirin",
    mkActib "Caffeine"
  ]

/-- The C2 example document: document-level title exactly "Drug Facts". -/
def docAspirinCaffeine : Element :=
  elem "document" [
    txtleaf "title" "Drug Facts",
    elem "component" [dsAspirinCaffeine]
  ]

/-- A data-elements section with no product name and no active
ingredients. -/
def dsBare : Element :=
  elemA "section" [] [elemA "code" [("code", "48780-1")] []]

/-- The C2 counterexample document: title "Drug Facts", an (empty)
data-elements section, and a manufactured-product name "Tylenol" located
outside the data-elements section. -/
def docTylenolOutside : Element :=
  elem "document" [
    txtleaf "title" "Drug Facts",
    elem "component" [dsBare],
    elem "subject" [elem "manufacturedProduct" [txtleaf "name" "Tylenol"]]
  ]

/-- C2 counterexample: the claim says the parser replaces the "Drug Facts"
placeholder by "a manufactured-product name found anywhere in the
document". In `docTylenolOutside` such a name ("Tylenol") exists and the
data-elements section has no product name and no active ingredients, yet
the resolved title stays "Drug Facts": when the data-elements section
exists the code only searches for a product name inside it. -/
theorem title_placeholder_counterexample :
    resolveTitle docTylenolOutside (findDataSection docTylenolOutside)
      = some "Drug Facts" ∧
    (findPath2First docTylenolOutside "manufacturedProduct" "name").map
        (fun e => normJoin e.itertextStr) = some "Tylenol" ∧
    (∃ d, parse_spl_xml (some docTylenolOutside) = .ok d ∧ d.title = "Drug Facts") ∧
    ("Drug Facts" : String) ≠ "Tylenol" :=
  ⟨rfl, rfl, ⟨_, rfl, rfl⟩, by decide⟩

/-- C2 (amended): when the document-level title resolves to the "Drug
Facts" placeholder and the data-elements section exists but contains no
manufactured-product name element, the parser synthesizes the " / "-joined
names of the structured active ingredients of that section (keeping the
placeholder when there are none); the document-wide product-name search
runs only when the data-elements section is absent. In particular the
Aspirin/Caffeine document resolves to "Aspirin / Caffeine". -/
theorem title_placeholder_scoped_amended (root ds te : Element)
    (hds : findDataSection root = some ds)
    (hmp : findPath2First ds "manufacturedProduct" "name" = none)
    (hte : firstDescWithTag root "title" = some te)
    (htt : normJoin (pyStrOfOpt te.text) = "Drug Facts") :
    resolveTitle root (findDataSection root) =
      some (if (collectActiveTitleNames ds).isEmpty then "Drug Facts"
            else joinSep " / " (collectActiveTitleNames ds)) := by
  rw [hds]
  have hs1 : resolveTitleStep1 (some ds) = none := by
    unfold resolveTitleStep1
    simp [hmp]
  unfold resolveTitle
  rw [hs1, hte]
  simp [optTruthy, htt, hmp]
  rw [if_pos (Or.inl (show pyLower "Drug Facts" = "drug facts" by decide))]
  by_cases hans : collectActiveTitleNames ds = [] <;> simp [hans]

/-- C2 witness: the amended rule applied to the Aspirin/Caffeine document
gives the synthesized title of the claim's concrete example. -/
theorem title_placeholder_scoped_amended_witness :
    resolveTitle docAspirinCaffeine (findDataSection docAspirinCaffeine)
      = some "Aspirin / Caffeine" :=
  (title_placeholder_scoped_amended docAspirinCaffeine dsAspirinCaffeine
    (txtleaf "title" "Drug Facts") rfl rfl rfl rfl).trans (by decide)

/-! ## C1: the inactive-ingredient union law -/

/-- The structured inactive names of a document (empty when the
data-elements section is absent or its extraction raised). -/
def sourceInactiveStructured (root : Element) : List String :=
  match findDataSection root with
  | some ds => (structuredInactive ds).toOption.getD []
  | none => []

/-- The free-text excipient names of a document. -/
def sourceInactiveText (root : Element) : List String :=
  match findInactiveSection root with
  | some i => textInactive i
  | none => []

/-- The case-insensitive union of the two inactive-ingredient sources (both
sources upper-case their entries, so the union de-duplicates up to case). -/
def sourceUnion (root : Element) : List String :=
  setUnion (sourceInactiveStructured root) (sourceInactiveText root)

theorem structuredInactive_go_inv :
    ∀ (L : List Element) (acc out : List String),
      structuredInactive.go L acc = .ok out →
      (acc.Nodup → out.Nodup) ∧
      ((∀ x ∈ acc, isUpperStr x) → ∀ x ∈ out, isUpperStr x) := by
  intro L
  induction L with
  | nil =>
    intro acc out h
    unfold structuredInactive.go at h
    simp only [Except.ok.injEq] at h
    subst h
    exact ⟨id, id⟩
  | cons ing rest ih =>
    intro acc out h
    unfold structuredInactive.go at h
    cases hne : findPath2First ing "ingredientSubstance" "name" with
    | none =>
      rw [hne] at h
      exact ih acc out h
    | some ne =>
      simp only [hne] at h
      cases htx : ne.text with
      | none =>
        rw [htx] at h
        exact absurd h (by simp)
      | some t =>
        rw [htx] at h
        have hrec := ih (setAdd (pyUpper (pyStrip t)) acc) out h
        refine ⟨fun hn => hrec.1 (setAdd_nodup _ _ hn), fun hu => hrec.2 ?_⟩
        intro x hx
        rcases (setAdd_mem x _ acc).mp hx with rfl | hx
        · exact isUpperStr_pyUpper _
        · exact hu x hx

theorem innerFold_inv (subs : List String) :
    ∀ acc : List String, acc.Nodup → (∀ x ∈ acc, isUpperStr x) →
      (∀ s ∈ subs, isUpperStr (pyStrip s)) →
      ((subs.foldl (fun acc2 sub =>
          if pyStrip sub ≠ "" then setAdd (pyStrip sub) acc2 else acc2) acc).Nodup ∧
       ∀ x ∈ subs.foldl (fun acc2 sub =>
          if pyStrip sub ≠ "" then setAdd (pyStrip sub) acc2 else acc2) acc,
         isUpperStr x) := by
  induction subs with
  | nil => intro acc h1 h2 _; exact ⟨h1, h2⟩
  | cons s rest ih =>
    intro acc h1 h2 hs
    simp only [List.foldl_cons]
    by_cases hne : pyStrip s ≠ ""
    · rw [if_pos hne]
      refine ih _ (setAdd_nodup _ _ h1) ?_
        (fun s2 hs2 => hs s2 (List.mem_cons_of_mem _ hs2))
      intro x hx
      rcases (setAdd_mem x _ acc).mp hx with rfl | hx
      · exact hs s (List.mem_cons_self _ _)
      · exact h2 x hx
    · rw [if_neg hne]
      exact ih acc h1 h2 (fun s2 hs2 => hs s2 (List.mem_cons_of_mem _ hs2))

theorem addTextFragments_inv (acc : List String) (item : String)
    (h1 : acc.Nodup) (h2 : ∀ x ∈ acc, isUpperStr x) :
    (addTextFragments acc item).Nodup ∧
    ∀ x ∈ addTextFragments acc item, isUpperStr x := by
  unfold addTextFragments
  by_cases hc : pyUpper (pyStrip item) ≠ ""
  · rw [if_pos hc]
    by_cases hin : pyIn " AND " (pyUpper (pyStrip item)) = true
    · rw [if_pos hin]
      apply innerFold_inv _ acc h1 h2
      intro s hsub
      have hup : isUpperStr (pyUpper (pyStrip item)) := isUpperStr_pyUpper _
      exact isUpperStr_pyStrip (isUpperStr_of_chars_subset hup (pySplitOnStr_chars hsub))
    · rw [if_neg hin]
      refine ⟨setAdd_nodup _ _ h1, ?_⟩
      intro x hx
      rcases (setAdd_mem x _ acc).mp hx with rfl | hx
      · exact isUpperStr_pyUpper _
      · exact h2 x hx
  · rw [if_neg hc]
    exact ⟨h1, h2⟩

theorem foldl_addTextFragments_inv (items : List String) :
    ∀ acc : List String, acc.Nodup → (∀ x ∈ acc, isUpperStr x) →
      ((items.foldl addTextFragments acc).Nodup ∧
       ∀ x ∈ items.foldl addTextFragments acc, isUpperStr x) := by
  induction items with
  | nil => intro acc h1 h2; exact ⟨h1, h2⟩
  | cons i rest ih =>
    intro acc h1 h2
    simp only [List.foldl_cons]
    obtain ⟨n1, n2⟩ := addTextFragments_inv acc i h1 h2
    exact ih _ n1 n2

theorem textInactive_inv (isec : Element) :
    (textInactive isec).Nodup ∧ ∀ x ∈ textInactive isec, isUpperStr x := by
  have hgen : ∀ (b : Bool) (items : List String),
      ((if b then [] else items.foldl addTextFragments []).Nodup ∧
       ∀ x ∈ (if b then [] else items.foldl addTextFragments []), isUpperStr x) := by
    intro b items
    cases b
    · simpa using foldl_addTextFragments_inv items [] List.nodup_nil (by simp)
    · simp
  exact hgen _ _

theorem combineInactive_inv (S T : List String)
    (hSn : S.Nodup) (hSu : ∀ x ∈ S, isUpperStr x)
    (hTu : ∀ x ∈ T, isUpperStr x) :
    List.Pairwise (fun a b => pyStrLe a b = true) (combineInactive S T) ∧
    (combineInactive S T).Nodup ∧
    (∀ s, s ∈ combineInactive S T ↔
      ∃ u ∈ setUnion S T, u ≠ "" ∧ s = pyTitle u) ∧
    (∀ u ∈ setUnion S T, u ≠ "" →
      (combineInactive S T).count (pyTitle u) = 1) := by
  have hUn : (setUnion S T).Nodup := setUnion_nodup S T hSn
  have hUu : ∀ x ∈ setUnion S T, isUpperStr x := by
    intro x hx
    rcases (setUnion_mem x S T).mp hx with hx | hx
    · exact hSu x hx
    · exact hTu x hx
  have hFn : ((setUnion S T).filter (fun s => s ≠ "")).Nodup := hUn.filter _
  have hFu : ∀ x ∈ (setUnion S T).filter (fun s => s ≠ ""), isUpperStr x :=
    fun x hx => hUu x (List.mem_of_mem_filter hx)
  have hMn : (((setUnion S T).filter (fun s => s ≠ "")).map pyTitle).Nodup :=
    List.Nodup.map_on
      (fun x hx y hy hxy => pyTitle_injOn (hFu x hx) (hFu y hy) hxy) hFn
  have hperm : List.Perm (combineInactive S T)
      (((setUnion S T).filter (fun s => s ≠ "")).map pyTitle) := pySorted_perm _
  refine ⟨pySorted_pairwise _, (hperm.nodup_iff).mpr hMn, ?_, ?_⟩
  · intro s
    rw [hperm.mem_iff]
    simp only [List.mem_map, List.mem_filter]
    constructor
    · rintro ⟨u, ⟨hu1, hu2⟩, rfl⟩
      exact ⟨u, hu1, by simpa using hu2, rfl⟩
    · rintro ⟨u, hu1, hu2, rfl⟩
      exact ⟨u, ⟨hu1, by simpa using hu2⟩, rfl⟩
  · intro u hu hne
    rw [hperm.count_eq]
    exact List.count_eq_one_of_mem hMn
      (List.mem_map.mpr ⟨u, List.mem_filter.mpr ⟨hu, by simpa using hne⟩, rfl⟩)

theorem parse_ok_inactive (root : Element) (d : ParsedData)
    (h : parse_spl_xml (some root) = .ok d) :
    d.inactive = combineInactive (sourceInactiveStructured root)
      (sourceInactiveText root) ∧
    (sourceInactiveStructured root).Nodup ∧
    (∀ x ∈ sourceInactiveStructured root, isUpperStr x) ∧
    (∀ x ∈ sourceInactiveText root, isUpperStr x) := by
  have hTu : ∀ x ∈ sourceInactiveText root, isUpperStr x := by
    unfold sourceInactiveText
    cases hi : findInactiveSection root
    · simp
    · simpa using (textInactive_inv _).2
  cases ht : traverseSPL root with
  | error e =>
    rw [parse_spl_xml] at h
    simp only [ht] at h
    exact Except.noConfusion h
  | ok d2 =>
    have hd2 : d2 = d := by
      rw [parse_spl_xml] at h
      simpa [ht] using h
    subst hd2
    unfold traverseSPL at ht
    cases hds : findDataSection root with
    | none =>
      simp only [hds] at ht
      have hin : combineInactive [] (match findInactiveSection root with
          | some i => textInactive i | none => []) = d2.inactive := by
        have := congrArg ParsedData.inactive (Except.ok.inj ht)
        simpa using this
      refine ⟨?_, ?_, ?_, hTu⟩
      · rw [← hin]
        unfold sourceInactiveStructured sourceInactiveText
        rw [hds]
      · unfold sourceInactiveStructured
        rw [hds]
        exact List.nodup_nil
      · unfold sourceInactiveStructured
        rw [hds]
        simp
    | some ds =>
      simp only [hds] at ht
      cases hea : extractActives ds with
      | error e =>
        simp only [hea] at ht
        exact Except.noConfusion ht
      | ok as =>
        simp only [hea] at ht
        cases hsi : structuredInactive ds with
        | error e =>
          simp only [hsi] at ht
          exact Except.noConfusion ht
        | ok S =>
          simp only [hsi] at ht
          have hin : combineInactive S (match findInactiveSection root with
              | some i => textInactive i | none => []) = d2.inactive := by
            have := congrArg ParsedData.inactive (Except.ok.inj ht)
            simpa using this
          have hSsrc : sourceInactiveStructured root = S := by
            unfold sourceInactiveStructured
            simp only [hds, hsi]
            rfl
          have hgo := structuredInactive_go_inv
            (descsWithTagAttr ds "ingredient" "classCode" "IACT") [] S hsi
          refine ⟨?_, ?_, ?_, hTu⟩
          · rw [← hin, hSsrc]
            unfold sourceInactiveText
            rfl
          · rw [hSsrc]
            exact hgo.1 List.nodup_nil
          · rw [hSsrc]
            exact hgo.2 (by simp)

/-- C1: for every successfully parsed document, the inactive list is
sorted, duplicate-free, and is exactly the title-cased image of the
non-empty members of the case-insensitive union of the structured and
free-text sources; each union member yields exactly one entry, so an
ingredient listed by both sources (in any casing) appears once. -/
theorem inactive_union_law (root : Element) (d : ParsedData)
    (h : parse_spl_xml (some root) = .ok d) :
    List.Pairwise (fun a b => pyStrLe a b = true) d.inactive ∧
    d.inactive.Nodup ∧
    (∀ s, s ∈ d.inactive ↔ ∃ u ∈ sourceUnion root, u ≠ "" ∧ s = pyTitle u) ∧
    (∀ u ∈ sourceUnion root, u ≠ "" → d.inactive.count (pyTitle u) = 1) := by
  obtain ⟨heq, hSn, hSu, hTu⟩ := parse_ok_inactive root d h
  rw [heq]
  exact combineInactive_inv _ _ hSn hSu hTu

/-- The data-elements section of the C1 witness document: one structured
inactive ingredient "Corn Starch". -/
def dsCornStarch : Element :=
  elemA "section" [] [
    elemA "code" [("code", "48780-1")] [],
    mkIact "Corn Starch"
  ]

/-- The excipient-prose section of the C1 witness document: lists
"corn starch and water" in free text. -/
def inactSecCornStarch : Element :=
  elemA "section" [] [
    elemA "code" [("code", "51727-6")] [],
    txtleaf "paragraph" "Inactive ingredients: corn starch and water."
  ]

/-- The C1 witness document: "Corn Starch" appears in the structured block
and (lower-cased) in the prose. -/
def docCornStarch : Element :=
  elem "document" [
    txtleaf "title" "Corn Med",
    elem "component" [dsCornStarch, inactSecCornStarch]
  ]

/-- The record `parse_spl_xml` produces for `docCornStarch`. -/
def parsedCornStarch : ParsedData :=
  { set_id := none, title := "Corn Med", form_code_display := "N/A",
    route_code_display := "N/A", active := [],
    inactive := ["Corn Starch", "Water"] }

/-- C1 witness: on the concrete document both sources list corn starch
(with different casing) and the union law gives it exactly one entry. -/
theorem inactive_union_law_witness :
    parse_spl_xml (some docCornStarch) = .ok parsedCornStarch ∧
    "CORN STARCH" ∈ sourceInactiveStructured docCornStarch ∧
    "CORN STARCH" ∈ sourceInactiveText docCornStarch ∧
    parsedCornStarch.inactive.count (pyTitle "CORN STARCH") = 1 :=
  ⟨rfl, by decide, by decide,
    (inactive_union_law docCornStarch parsedCornStarch rfl).2.2.2
      "CORN STARCH" (by decide) (by decide)⟩
